import Mathlib

/-!
# Verification of the easy_srtm elevation engine

Shallow embedding of `src/lib.rs` of the `easy_srtm` repository.

Modelling choices:
* The Rust `f32` latitude/longitude arguments are embedded as exact
  rationals `ℚ`; the operations the code performs on them (`floor`, `abs`,
  comparison, subtraction, multiplication by a small integer,
  `round` = round-half-away-from-zero, the saturating `as u32` cast) are
  embedded exactly.  On every concrete input appearing below the `f32`
  computation and the exact computation agree.
* A file (`std::fs::File` handle) is embedded as its byte contents:
  a length plus a byte-valued function, supporting the exact operations the
  code uses — `metadata().len()`, an absolute seek, and a two-byte read
  (which fails when fewer than two bytes remain, as `read_i16` does at EOF).
* The tile directory is embedded as a partial map from filename to file
  contents; `File::open` fails exactly on the names outside the map.
* `u32` arithmetic carries an explicit `% 2 ^ 32`; the `y` coordinate
  subtraction uses wrapping two's-complement semantics so that an underflow
  would be visible in the model.
-/

/-- Byte size of an SRTM1 tile file, from `const SRTM1_FSIZE` in the source. -/
def SRTM1_FSIZE : Nat := 3601 * 3601 * 2

/-- Byte size of an SRTM3 tile file, from `const SRTM3_FSIZE` in the source. -/
def SRTM3_FSIZE : Nat := 1201 * 1201 * 2

/-- `enum Resolution { SRTM1, SRTM3 }` from the source. -/
inductive Resolution
  | SRTM1
  | SRTM3
deriving DecidableEq, Repr

/-- Error type of the elevation pipeline.  `ResolutionError` is
`SrtmError::ResolutionError` from the source; the other constructors embed
the `std::io::Error` values that `anyhow::Result` can carry out of
`Tiles::elevation` (failed `File::open`, short `read_i16`), plus a marker
for the `.unwrap()` panic path, so that reachability of each exit can be
stated. -/
inductive SrtmError
  | ResolutionError
  | IoNotFound
  | IoShortRead
  | UnwrapPanic
deriving DecidableEq, Repr

/-- `impl TryFrom<u64> for Resolution`: classify a file size, failing on
anything but the two legal sizes. -/
def Resolution.tryFrom (filesize : Nat) : Except SrtmError Resolution :=
  if filesize = SRTM1_FSIZE then .ok .SRTM1
  else if filesize = SRTM3_FSIZE then .ok .SRTM3
  else .error .ResolutionError

/-- `Resolution::side`: side length of the square sample grid. -/
def Resolution.side : Resolution → Nat
  | .SRTM1 => 3601
  | .SRTM3 => 1201

/-- Zero-padding decimal formatting: Rust's `{:02}` / `{:03}` format
specifier applied to the nonnegative whole number `n`. -/
def padDec (w : Nat) (n : Nat) : String :=
  let s := toString n
  String.mk (List.replicate (w - s.length) '0') ++ s

/-- `srtm_file_name` from the source: `clean = |v.floor()|`,
`ns = lat >= 0 ? "N" : "S"`, `ew = (lng >= 0 && lng < 180) ? "E" : "W"`,
formatted `"{ns}{clean lat:02}{ew}{clean lng:03}.hgt"`. -/
def srtm_file_name (lat lng : ℚ) : String :=
  let clean : ℚ → Nat := fun v => (⌊v⌋).natAbs
  let ns := if lat ≥ 0 then "N" else "S"
  let ew := if lng ≥ 0 ∧ lng < 180 then "E" else "W"
  ns ++ padDec 2 (clean lat) ++ ew ++ padDec 3 (clean lng) ++ ".hgt"

/-- `f32::round`: round half away from zero, exact on rationals.
(`mkRat 1 2` is the literal one half; written this way so that the kernel
can evaluate the definition on concrete inputs.) -/
def rustRound (q : ℚ) : ℤ :=
  if 0 ≤ q then ⌊q + mkRat 1 2⌋ else -⌊-q + mkRat 1 2⌋

/-- Rust's saturating float-to-`u32` cast `as u32` applied to a whole
number: negative values clamp to `0`, values above `u32::MAX` clamp to
`u32::MAX`. -/
def f32AsU32 (z : ℤ) : Nat :=
  if z < 0 then 0 else min z.toNat (2 ^ 32 - 1)

/-- `srtm_file_coord` from the source: `side = resolution.side() - 1`,
`pixel_index v = ((v - v.floor()) * side).round() as u32`, result
`(pixel_index lng, side - pixel_index lat)`.  The `u32` subtraction is
embedded with wrapping semantics so that an underflow would be observable. -/
def srtm_file_coord (lat lng : ℚ) (resolution : Resolution) : Nat × Nat :=
  let side := resolution.side - 1
  let pixel_index : ℚ → Nat := fun v => f32AsU32 (rustRound ((v - (⌊v⌋ : ℚ)) * (side : ℚ)))
  (pixel_index lng, (side + 2 ^ 32 - pixel_index lat) % 2 ^ 32)

/-- An open file handle, embedded as the byte contents it gives access to:
`size` is what `metadata().len()` returns, `byte i` the byte at offset `i`
(only offsets `< size` are ever read). -/
structure FileData where
  size : Nat
  byte : Nat → Nat

/-- The tile directory: `File::open` on name `n` succeeds with contents
`fs n` when that is `some`, and fails (file not found) otherwise. -/
def DirFS : Type := String → Option FileData

/-- Decode two bytes as a signed big-endian 16-bit integer
(`read_i16::<BigEndian>`). -/
def decodeI16BE (b0 b1 : Nat) : ℤ :=
  let v := b0 % 256 * 256 + b1 % 256
  if v < 32768 then (v : ℤ) else (v : ℤ) - 65536

/-- Seek to absolute offset `off` and read exactly two bytes as a signed
big-endian 16-bit integer; fails (as `read_i16` does at end of file) when
fewer than two bytes remain. -/
def readI16At (fd : FileData) (off : Nat) : Except SrtmError ℤ :=
  if off + 2 ≤ fd.size then .ok (decodeI16BE (fd.byte off) (fd.byte (off + 1)))
  else .error .IoShortRead

/-- The closure body inside `Tiles::elevation`: derive the resolution from
the handle's size, compute the pixel coordinate, the linear index
`x + y * side` and the byte offset `index * 2` (both in `u32` arithmetic),
then seek and decode one sample. -/
def readSample (lat lng : ℚ) (fd : FileData) : Except SrtmError ℤ :=
  match Resolution.tryFrom fd.size with
  | .error e => .error e
  | .ok resolution =>
      let xy := srtm_file_coord lat lng resolution
      let index := (xy.1 + xy.2 * resolution.side) % 2 ^ 32
      readI16At fd (index * 2 % 2 ^ 32)

/-- The handle cache of a `Tiles` value: the `HashMap<String, File>` is
embedded as an association list (most recent insertion first). -/
structure Tiles where
  handles : List (String × FileData)

/-- `HashMap::get`, on the association-list embedding. -/
def lookupHandle : List (String × FileData) → String → Option FileData
  | [], _ => none
  | (k, fd) :: rest, key => if k = key then some fd else lookupHandle rest key

/-- Outcome of one `Tiles::elevation` call: the returned `Result`, the
cache state after the call, and whether the call performed a successful
`File::open` (inserting a new handle). -/
structure ElevOutcome where
  res : Except SrtmError ℤ
  tiles : Tiles
  opened : Bool

/-- `Tiles::elevation` from the source: derive the filename, check the
cache, on a miss open the file (propagating an open failure) and insert
the handle, then look the filename up again, `.unwrap()` the option
(the `UnwrapPanic` marker embeds the panic on the `None` branch) and run
the seek-and-decode closure on the handle. -/
def elevation (fs : DirFS) (t : Tiles) (lat lng : ℚ) : ElevOutcome :=
  let filename := srtm_file_name lat lng
  let cachehit := (lookupHandle t.handles filename).isSome
  if cachehit then
    match lookupHandle t.handles filename with
    | some fd => ⟨readSample lat lng fd, t, false⟩
    | none => ⟨.error .UnwrapPanic, t, false⟩
  else
    match fs filename with
    | none => ⟨.error .IoNotFound, t, false⟩
    | some fd =>
        let t1 : Tiles := ⟨(filename, fd) :: t.handles⟩
        match lookupHandle t1.handles filename with
        | some fd1 => ⟨readSample lat lng fd1, t1, true⟩
        | none => ⟨.error .UnwrapPanic, t1, true⟩

/-! ## Basic facts about the embedded numeric operations -/

/-- The literal one half used by `rustRound`, as a division. -/
theorem half_val : (mkRat 1 2 : ℚ) = 1 / 2 := by
  rw [Rat.mkRat_eq_div]; norm_num

/-- The fractional part `v - v.floor()` is nonnegative. -/
theorem fract_lb (v : ℚ) : 0 ≤ v - (⌊v⌋ : ℚ) := by
  have h := Int.floor_le v
  linarith

/-- The fractional part `v - v.floor()` is below one. -/
theorem fract_ub (v : ℚ) : v - (⌊v⌋ : ℚ) < 1 := by
  have h := Int.lt_floor_add_one v
  linarith

/-- On nonnegative input, round-half-away-from-zero is `⌊q + 1/2⌋`. -/
theorem rustRound_eq_floor (q : ℚ) (h : 0 ≤ q) : rustRound q = ⌊q + mkRat 1 2⌋ := by
  simp [rustRound, h]

/-- The scaled fractional part rounds to a nonnegative integer. -/
theorem rustRound_frac_nonneg (v : ℚ) (s : Nat) :
    0 ≤ rustRound ((v - (⌊v⌋ : ℚ)) * (s : ℚ)) := by
  have hq : 0 ≤ (v - (⌊v⌋ : ℚ)) * (s : ℚ) := mul_nonneg (fract_lb v) (by positivity)
  rw [rustRound_eq_floor _ hq]
  refine Int.le_floor.mpr ?_
  rw [half_val]
  push_cast
  linarith

/-- The scaled fractional part rounds to at most the scale `s`. -/
theorem rustRound_frac_le (v : ℚ) (s : Nat) :
    rustRound ((v - (⌊v⌋ : ℚ)) * (s : ℚ)) ≤ (s : ℤ) := by
  have hq0 : 0 ≤ (v - (⌊v⌋ : ℚ)) * (s : ℚ) := mul_nonneg (fract_lb v) (by positivity)
  have hq1 : (v - (⌊v⌋ : ℚ)) * (s : ℚ) ≤ (s : ℚ) := by
    have h1 := fract_ub v
    have hs : (0 : ℚ) ≤ (s : ℚ) := by positivity
    nlinarith
  rw [rustRound_eq_floor _ hq0]
  have hlt : ⌊(v - (⌊v⌋ : ℚ)) * (s : ℚ) + mkRat 1 2⌋ < (s : ℤ) + 1 := by
    refine Int.floor_lt.mpr ?_
    rw [half_val]
    push_cast
    linarith
  omega

/-- The `u32` cast of a rounded scaled fractional part never clamps:
`pixel_index v ≤ s`. -/
theorem pixelIndex_le (v : ℚ) (s : Nat) :
    f32AsU32 (rustRound ((v - (⌊v⌋ : ℚ)) * (s : ℚ))) ≤ s := by
  have h0 := rustRound_frac_nonneg v s
  have h1 := rustRound_frac_le v s
  unfold f32AsU32
  rw [if_neg (by omega)]
  omega

/-- Casting back a nonnegative in-range value through `f32AsU32`. -/
theorem f32AsU32_of_bounds (z : ℤ) (h0 : 0 ≤ z) (h1 : z ≤ 3600) :
    (f32AsU32 z : ℤ) = z := by
  unfold f32AsU32
  rw [if_neg (by omega)]
  have h32 : (2 : Nat) ^ 32 - 1 = 4294967295 := by norm_num
  omega

/-- The x pixel coordinate stays within the grid. -/
theorem coord_fst_le (lat lng : ℚ) (res : Resolution) :
    (srtm_file_coord lat lng res).1 ≤ res.side - 1 := by
  simpa [srtm_file_coord] using pixelIndex_le lng (res.side - 1)

/-- The y pixel coordinate stays within the grid: the wrapping subtraction
`side - pixel_index lat` never underflows. -/
theorem coord_snd_le (lat lng : ℚ) (res : Resolution) :
    (srtm_file_coord lat lng res).2 ≤ res.side - 1 := by
  have hpx := pixelIndex_le lat (res.side - 1)
  have hside : res.side - 1 ≤ 3600 := by cases res <;> simp [Resolution.side]
  simp only [srtm_file_coord]
  have h32 : (2 : Nat) ^ 32 = 4294967296 := by norm_num
  rw [h32]
  omega

/-- The linear index and its byte offset fit both the file and a `u32`. -/
theorem offset_bound (lat lng : ℚ) (res : Resolution) :
    ((srtm_file_coord lat lng res).1 + (srtm_file_coord lat lng res).2 * res.side) * 2 + 2
        ≤ res.side * res.side * 2 ∧
      ((srtm_file_coord lat lng res).1 + (srtm_file_coord lat lng res).2 * res.side) * 2
        < 2 ^ 32 := by
  have h1 := coord_fst_le lat lng res
  have h2 := coord_snd_le lat lng res
  have h32 : (2 : Nat) ^ 32 = 4294967296 := by norm_num
  rw [h32]
  cases res <;> (simp only [Resolution.side] at h1 h2 ⊢; omega)

/-- Outcomes of resolution detection. -/
theorem tryFrom_cases (n : Nat) (res : Resolution) (h : Resolution.tryFrom n = .ok res) :
    res = .SRTM1 ∧ n = SRTM1_FSIZE ∨ res = .SRTM3 ∧ n = SRTM3_FSIZE := by
  unfold Resolution.tryFrom at h
  split_ifs at h with h1 h2 <;> simp_all

/-- A failed resolution detection always reports `ResolutionError`. -/
theorem tryFrom_error_eq (n : Nat) (e : SrtmError) (h : Resolution.tryFrom n = .error e) :
    e = .ResolutionError := by
  unfold Resolution.tryFrom at h
  split_ifs at h
  simp_all

/-! ## Evaluation equations for one `elevation` call -/

/-- On a cache hit the call uses the cached handle, changes nothing and
opens nothing. -/
theorem elevation_of_hit (fs : DirFS) (t : Tiles) (lat lng : ℚ) (fd : FileData)
    (h : lookupHandle t.handles (srtm_file_name lat lng) = some fd) :
    elevation fs t lat lng = ⟨readSample lat lng fd, t, false⟩ := by
  simp [elevation, h]

/-- On a cache miss for an absent file the call fails with the open error
and changes nothing. -/
theorem elevation_of_absent (fs : DirFS) (t : Tiles) (lat lng : ℚ)
    (h : lookupHandle t.handles (srtm_file_name lat lng) = none)
    (h2 : fs (srtm_file_name lat lng) = none) :
    elevation fs t lat lng = ⟨.error .IoNotFound, t, false⟩ := by
  simp [elevation, h, h2]

/-- On a cache miss for a present file the call opens it once, inserts the
handle and reads from it. -/
theorem elevation_of_miss (fs : DirFS) (t : Tiles) (lat lng : ℚ) (fd : FileData)
    (h : lookupHandle t.handles (srtm_file_name lat lng) = none)
    (h2 : fs (srtm_file_name lat lng) = some fd) :
    elevation fs t lat lng =
      ⟨readSample lat lng fd, ⟨(srtm_file_name lat lng, fd) :: t.handles⟩, true⟩ := by
  simp [elevation, h, h2, lookupHandle]

/-- Reading through a handle of legal size reduces to the seek-and-decode. -/
theorem readSample_of_ok (lat lng : ℚ) (fd : FileData) (res : Resolution)
    (h : Resolution.tryFrom fd.size = .ok res) :
    readSample lat lng fd =
      readI16At fd
        (((srtm_file_coord lat lng res).1 + (srtm_file_coord lat lng res).2 * res.side)
            % 2 ^ 32 * 2 % 2 ^ 32) := by
  simp [readSample, h]

/-- Reading through a handle of illegal size propagates the format error. -/
theorem readSample_of_err (lat lng : ℚ) (fd : FileData) (e : SrtmError)
    (h : Resolution.tryFrom fd.size = .error e) :
    readSample lat lng fd = .error e := by
  simp [readSample, h]

/-- For a legal-size handle the whole index arithmetic stays below the
`u32` modulus and the seek lands at least two bytes before end of file, so
the read succeeds. -/
theorem readSample_ok_of_legal (lat lng : ℚ) (fd : FileData) (res : Resolution)
    (h : Resolution.tryFrom fd.size = .ok res) :
    readSample lat lng fd =
      .ok (decodeI16BE
        (fd.byte (((srtm_file_coord lat lng res).1 + (srtm_file_coord lat lng res).2 * res.side) * 2))
        (fd.byte
          (((srtm_file_coord lat lng res).1 + (srtm_file_coord lat lng res).2 * res.side) * 2 + 1))) := by
  have hb := offset_bound lat lng res
  have hsize : fd.size = res.side * res.side * 2 := by
    rcases tryFrom_cases fd.size res h with ⟨hres, hn⟩ | ⟨hres, hn⟩ <;>
      simp [hn, hres, SRTM1_FSIZE, SRTM3_FSIZE, Resolution.side]
  rw [readSample_of_ok lat lng fd res h]
  have hidx : ((srtm_file_coord lat lng res).1 + (srtm_file_coord lat lng res).2 * res.side)
      % 2 ^ 32 = (srtm_file_coord lat lng res).1 + (srtm_file_coord lat lng res).2 * res.side := by
    apply Nat.mod_eq_of_lt
    omega
  rw [hidx]
  have hoff : ((srtm_file_coord lat lng res).1 + (srtm_file_coord lat lng res).2 * res.side)
      * 2 % 2 ^ 32
      = ((srtm_file_coord lat lng res).1 + (srtm_file_coord lat lng res).2 * res.side) * 2 :=
    Nat.mod_eq_of_lt hb.2
  rw [hoff, readI16At, if_pos (by omega)]

/-- A key missing from the association list is not among its keys. -/
theorem lookupHandle_none_not_mem (hs : List (String × FileData)) (key : String)
    (h : lookupHandle hs key = none) : key ∉ hs.map Prod.fst := by
  induction hs with
  | nil => simp
  | cons p rest ih =>
      obtain ⟨k, fd⟩ := p
      by_cases hk : k = key
      · simp [lookupHandle, hk] at h
      · simp only [lookupHandle, hk, if_false] at h
        simp [hk, ih h]
        exact fun contra => (hk contra.symm).elim

/-- The size of a legally-sized file in terms of its detected resolution. -/
theorem tryFrom_ok_size (n : Nat) (res : Resolution) (h : Resolution.tryFrom n = .ok res) :
    n = res.side * res.side * 2 := by
  rcases tryFrom_cases n res h with ⟨hres, hn⟩ | ⟨hres, hn⟩ <;>
    simp [hn, hres, SRTM1_FSIZE, SRTM3_FSIZE, Resolution.side]

/-- The sample-reading closure never reaches the unwrap-panic marker. -/
theorem readSample_no_panic (lat lng : ℚ) (fd : FileData) :
    readSample lat lng fd ≠ .error .UnwrapPanic := by
  cases h : Resolution.tryFrom fd.size with
  | error e =>
      rw [readSample_of_err lat lng fd e h]
      have he := tryFrom_error_eq fd.size e h
      simp [he]
  | ok res =>
      rw [readSample_of_ok lat lng fd res h]
      unfold readI16At
      split_ifs <;> simp

/-! ## The claims -/

/-- C4: resolution detection from byte length is total and exact —
`from_size(n)` is `SRTM1` exactly for `n = 3601·3601·2`, `SRTM3` exactly
for `n = 1201·1201·2`, and a format error for every other `n`. -/
theorem tryFrom_exact :
    ∀ n : Nat,
      (Resolution.tryFrom n = .ok .SRTM1 ↔ n = 3601 * 3601 * 2) ∧
      (Resolution.tryFrom n = .ok .SRTM3 ↔ n = 1201 * 1201 * 2) ∧
      (n ≠ 3601 * 3601 * 2 → n ≠ 1201 * 1201 * 2 →
        Resolution.tryFrom n = .error .ResolutionError) := by
  intro n
  unfold Resolution.tryFrom SRTM1_FSIZE SRTM3_FSIZE
  refine ⟨?_, ?_, ?_⟩ <;> split_ifs <;> simp_all

/-- Witness for C4 at the concrete size 7. -/
theorem tryFrom_exact_witness : Resolution.tryFrom 7 = .error .ResolutionError :=
  (tryFrom_exact 7).2.2 (by decide) (by decide)

/-- The filename format exactly as the specification words it (used to
state C2): NS tag from the sign of `lat`, EW tag from `0 ≤ lng < 180`,
two-digit and three-digit zero-padded `|⌊·⌋|` magnitudes. -/
def filename_of_spec (lat lng : ℚ) : String :=
  (if 0 ≤ lat then "N" else "S") ++ padDec 2 (⌊lat⌋).natAbs ++
    (if 0 ≤ lng ∧ lng < 180 then "E" else "W") ++ padDec 3 (⌊lng⌋).natAbs ++ ".hgt"

/-- C2: `filename` is NS + 2-digit `|⌊lat⌋|` + EW + 3-digit `|⌊lng⌋|` +
".hgt" with `N` exactly when `lat ≥ 0` and `E` exactly when
`0 ≤ lng < 180`; in particular the zero, negative-zero, 180° and 179.9°
boundary values. -/
theorem srtm_file_name_spec :
    (∀ lat lng : ℚ, srtm_file_name lat lng = filename_of_spec lat lng) ∧
    srtm_file_name 0 (-0 : ℚ) = "N00E000.hgt" ∧
    srtm_file_name (-0 : ℚ) 0 = "N00E000.hgt" ∧
    srtm_file_name 45 180 = "N45W180.hgt" ∧
    srtm_file_name 45 (179.9 : ℚ) = "N45E179.hgt" := by
  refine ⟨fun lat lng => rfl, by decide, by decide, by decide, ?_⟩
  have h : (179.9 : ℚ) = mkRat 1799 10 := by rw [Rat.mkRat_eq_div]; norm_num
  rw [h]
  decide

/-- The pixel mapping exactly as the specification words it (used to state
C3): integer components, `side = resolution.side - 1`, fractional parts
scaled by `side`, round-half-away-from-zero, true subtraction for `y`. -/
def pixel_of_spec (lat lng : ℚ) (resolution : Resolution) : ℤ × ℤ :=
  let side : ℤ := (resolution.side : ℤ) - 1
  (rustRound ((lng - (⌊lng⌋ : ℚ)) * (side : ℚ)),
    side - rustRound ((lat - (⌊lat⌋ : ℚ)) * (side : ℚ)))

/-- C3: the computed pixel coordinate agrees with the specification's
`(round(frac(lng)·side), side − round(frac(lat)·side))` for every input —
the casts and the wrapping subtraction never distort it — and takes the
claimed values on the two reference inputs. -/
theorem srtm_file_coord_spec :
    (∀ (lat lng : ℚ) (res : Resolution),
      ((srtm_file_coord lat lng res).1 : ℤ) = (pixel_of_spec lat lng res).1 ∧
      ((srtm_file_coord lat lng res).2 : ℤ) = (pixel_of_spec lat lng res).2) ∧
    srtm_file_coord (49.99972 : ℚ) (-0.99972224 : ℚ) .SRTM1 = (1, 1) ∧
    srtm_file_coord (49.02778 : ℚ) (-0.99972224 : ℚ) .SRTM1 = (1, 3500) := by
  refine ⟨?_, ?_, ?_⟩
  · intro lat lng res
    have hs3600 : res.side - 1 ≤ 3600 := by cases res <;> simp [Resolution.side]
    have hsz : ((res.side : ℤ) - 1) = ((res.side - 1 : Nat) : ℤ) := by
      cases res <;> simp [Resolution.side]
    have hcast : (((res.side - 1 : Nat) : ℤ) : ℚ) = ((res.side - 1 : Nat) : ℚ) := by
      push_cast
      ring
    constructor
    · simp only [srtm_file_coord, pixel_of_spec, hsz, hcast]
      exact f32AsU32_of_bounds _ (rustRound_frac_nonneg lng (res.side - 1))
        (le_trans (rustRound_frac_le lng (res.side - 1)) (by exact_mod_cast hs3600))
    · simp only [srtm_file_coord, pixel_of_spec, hsz, hcast]
      have hpx := pixelIndex_le lat (res.side - 1)
      have h32 : (2 : Nat) ^ 32 = 4294967296 := by norm_num
      have hy : (res.side - 1 + 2 ^ 32 -
            f32AsU32 (rustRound ((lat - (⌊lat⌋ : ℚ)) * ((res.side - 1 : Nat) : ℚ)))) % 2 ^ 32
          = res.side - 1 -
            f32AsU32 (rustRound ((lat - (⌊lat⌋ : ℚ)) * ((res.side - 1 : Nat) : ℚ))) := by
        rw [h32]
        omega
      rw [hy]
      have hcastpx := f32AsU32_of_bounds _ (rustRound_frac_nonneg lat (res.side - 1))
        (le_trans (rustRound_frac_le lat (res.side - 1)) (by exact_mod_cast hs3600))
      rw [Nat.cast_sub hpx, hcastpx]
  · have h1 : (49.99972 : ℚ) = mkRat 4999972 100000 := by rw [Rat.mkRat_eq_div]; norm_num
    have h2 : (-0.99972224 : ℚ) = mkRat (-99972224) 100000000 := by
      rw [Rat.mkRat_eq_div]; norm_num
    rw [h1, h2]
    simp only [srtm_file_coord, rustRound, f32AsU32, Resolution.side,
      Rat.sub_def', Rat.mul_def, Rat.add_def']
    decide
  · have h1 : (49.02778 : ℚ) = mkRat 4902778 100000 := by rw [Rat.mkRat_eq_div]; norm_num
    have h2 : (-0.99972224 : ℚ) = mkRat (-99972224) 100000000 := by
      rw [Rat.mkRat_eq_div]; norm_num
    rw [h1, h2]
    simp only [srtm_file_coord, rustRound, f32AsU32, Resolution.side,
      Rat.sub_def', Rat.mul_def, Rat.add_def']
    decide

/-- C7: both pixel components stay in `[0, resolution.side − 1]` for every
input — the `y` subtraction never underflows and no index passes the grid
edge. -/
theorem pixel_in_grid :
    ∀ (lat lng : ℚ) (res : Resolution),
      (srtm_file_coord lat lng res).1 ≤ res.side - 1 ∧
      (srtm_file_coord lat lng res).2 ≤ res.side - 1 :=
  fun lat lng res => ⟨coord_fst_le lat lng res, coord_snd_le lat lng res⟩

/-- C10: for a file of legal byte length the byte offset of every
reachable pixel leaves at least two bytes before end of file, the linear
index times two fits a `u32`, and consequently the short-read branch is
unreachable. -/
theorem offset_within_file :
    ∀ (lat lng : ℚ) (fd : FileData) (res : Resolution),
      Resolution.tryFrom fd.size = .ok res →
      2 * ((srtm_file_coord lat lng res).1 + (srtm_file_coord lat lng res).2 * res.side) + 2
          ≤ fd.size ∧
        ((srtm_file_coord lat lng res).1 + (srtm_file_coord lat lng res).2 * res.side) * 2
          < 2 ^ 32 ∧
        readSample lat lng fd ≠ .error .IoShortRead := by
  intro lat lng fd res h
  have hb := offset_bound lat lng res
  have hsize := tryFrom_ok_size fd.size res h
  refine ⟨by omega, hb.2, ?_⟩
  rw [readSample_ok_of_legal lat lng fd res h]
  simp

/-- Witness for C10 on a concrete SRTM1-sized file at the origin. -/
theorem offset_within_file_witness :
    2 * ((srtm_file_coord 0 0 .SRTM1).1 + (srtm_file_coord 0 0 .SRTM1).2
            * Resolution.SRTM1.side) + 2
        ≤ (FileData.mk SRTM1_FSIZE fun _ => 0).size ∧
      ((srtm_file_coord 0 0 .SRTM1).1 + (srtm_file_coord 0 0 .SRTM1).2
          * Resolution.SRTM1.side) * 2 < 2 ^ 32 ∧
      readSample 0 0 (FileData.mk SRTM1_FSIZE fun _ => 0) ≠ .error .IoShortRead :=
  offset_within_file 0 0 ⟨SRTM1_FSIZE, fun _ => 0⟩ .SRTM1 rfl

/-- C9: the unconditional `.unwrap()` of the post-insert cache lookup in
`elevation` never panics: its `None` branch is unreachable on every path. -/
theorem elevation_no_unwrap_panic :
    ∀ (fs : DirFS) (t : Tiles) (lat lng : ℚ),
      (elevation fs t lat lng).res ≠ .error .UnwrapPanic := by
  intro fs t lat lng
  cases h : lookupHandle t.handles (srtm_file_name lat lng) with
  | some fd =>
      rw [elevation_of_hit fs t lat lng fd h]
      exact readSample_no_panic lat lng fd
  | none =>
      cases h2 : fs (srtm_file_name lat lng) with
      | none =>
          rw [elevation_of_absent fs t lat lng h h2]
          simp
      | some fd =>
          rw [elevation_of_miss fs t lat lng fd h h2]
          exact readSample_no_panic lat lng fd

/-- Witness for C9 on an empty directory and empty cache. -/
theorem elevation_no_unwrap_panic_witness :
    (elevation (fun _ => none) ⟨[]⟩ 0 0).res ≠ .error .UnwrapPanic :=
  elevation_no_unwrap_panic (fun _ => none) ⟨[]⟩ 0 0

/-- C1: when the tile file is fresh (not yet cached), present and of legal
size, `elevation` returns exactly the sample decoded as a signed big-endian
16-bit integer at byte offset `(x + y·side)·2`; in particular on a
high-resolution tile, `elevation(49.99972, -0.99972224)` returns the sample
at linear index `1 + 1·3601`. -/
theorem elevation_pipeline :
    (∀ (fs : DirFS) (t : Tiles) (lat lng : ℚ) (fd : FileData) (res : Resolution),
      lookupHandle t.handles (srtm_file_name lat lng) = none →
      fs (srtm_file_name lat lng) = some fd →
      Resolution.tryFrom fd.size = .ok res →
      (elevation fs t lat lng).res =
        .ok (decodeI16BE
          (fd.byte
            (((srtm_file_coord lat lng res).1 + (srtm_file_coord lat lng res).2 * res.side) * 2))
          (fd.byte
            (((srtm_file_coord lat lng res).1 + (srtm_file_coord lat lng res).2 * res.side) * 2
              + 1)))) ∧
    (∀ (fs : DirFS) (t : Tiles) (fd : FileData),
      lookupHandle t.handles "N49W001.hgt" = none →
      fs "N49W001.hgt" = some fd →
      fd.size = SRTM1_FSIZE →
      (elevation fs t (49.99972 : ℚ) (-0.99972224 : ℚ)).res =
        .ok (decodeI16BE (fd.byte ((1 + 1 * 3601) * 2)) (fd.byte ((1 + 1 * 3601) * 2 + 1)))) := by
  have hgen : ∀ (fs : DirFS) (t : Tiles) (lat lng : ℚ) (fd : FileData) (res : Resolution),
      lookupHandle t.handles (srtm_file_name lat lng) = none →
      fs (srtm_file_name lat lng) = some fd →
      Resolution.tryFrom fd.size = .ok res →
      (elevation fs t lat lng).res =
        .ok (decodeI16BE
          (fd.byte
            (((srtm_file_coord lat lng res).1 + (srtm_file_coord lat lng res).2 * res.side) * 2))
          (fd.byte
            (((srtm_file_coord lat lng res).1 + (srtm_file_coord lat lng res).2 * res.side) * 2
              + 1))) := by
    intro fs t lat lng fd res h h2 h3
    rw [elevation_of_miss fs t lat lng fd h h2]
    exact readSample_ok_of_legal lat lng fd res h3
  refine ⟨hgen, ?_⟩
  intro fs t fd h h2 hsize
  have hq1 : (49.99972 : ℚ) = mkRat 4999972 100000 := by rw [Rat.mkRat_eq_div]; norm_num
  have hq2 : (-0.99972224 : ℚ) = mkRat (-99972224) 100000000 := by
    rw [Rat.mkRat_eq_div]; norm_num
  have hname : srtm_file_name (49.99972 : ℚ) (-0.99972224 : ℚ) = "N49W001.hgt" := by
    rw [hq1, hq2]
    decide
  have hcoord : srtm_file_coord (49.99972 : ℚ) (-0.99972224 : ℚ) .SRTM1 = (1, 1) := by
    rw [hq1, hq2]
    simp only [srtm_file_coord, rustRound, f32AsU32, Resolution.side,
      Rat.sub_def', Rat.mul_def, Rat.add_def']
    decide
  have hres : Resolution.tryFrom fd.size = .ok .SRTM1 := by
    rw [hsize]
    rfl
  have happ := hgen fs t (49.99972 : ℚ) (-0.99972224 : ℚ) fd .SRTM1
    (by rw [hname]; exact h) (by rw [hname]; exact h2) hres
  rw [happ, hcoord]
  norm_num [Resolution.side]

/-- Witness for C1: a directory holding one SRTM1-sized file of constant
byte 7 yields the sample `7·256 + 7 = 1799`. -/
theorem elevation_pipeline_witness :
    (elevation (fun n => if n = "N49W001.hgt" then some ⟨SRTM1_FSIZE, fun _ => 7⟩ else none)
        ⟨[]⟩ (49.99972 : ℚ) (-0.99972224 : ℚ)).res = .ok 1799 :=
  (elevation_pipeline.2
      (fun n => if n = "N49W001.hgt" then some ⟨SRTM1_FSIZE, fun _ => 7⟩ else none)
      ⟨[]⟩ ⟨SRTM1_FSIZE, fun _ => 7⟩ rfl (by simp) rfl).trans (by rfl)

/-- C5: the cache keeps at most one handle per distinct filename (no
duplicate keys ever appear), and a second call resolving to the same
filename finds the cached handle: it performs no new open and leaves the
cache unchanged. -/
theorem cache_single_open :
    ∀ (fs : DirFS) (t : Tiles) (lat lng : ℚ),
      ((t.handles.map Prod.fst).Nodup →
        ((elevation fs t lat lng).tiles.handles.map Prod.fst).Nodup) ∧
      (elevation fs (elevation fs t lat lng).tiles lat lng).opened = false ∧
      (elevation fs (elevation fs t lat lng).tiles lat lng).tiles =
        (elevation fs t lat lng).tiles := by
  intro fs t lat lng
  cases h : lookupHandle t.handles (srtm_file_name lat lng) with
  | some fd =>
      simp only [elevation_of_hit fs t lat lng fd h]
      exact ⟨id, by trivial, by trivial⟩
  | none =>
      cases h2 : fs (srtm_file_name lat lng) with
      | none =>
          simp only [elevation_of_absent fs t lat lng h h2]
          exact ⟨id, by trivial, by trivial⟩
      | some fd =>
          simp only [elevation_of_miss fs t lat lng fd h h2]
          have hlook : lookupHandle ((srtm_file_name lat lng, fd) :: t.handles)
              (srtm_file_name lat lng) = some fd := by
            simp [lookupHandle]
          simp only [elevation_of_hit fs ⟨(srtm_file_name lat lng, fd) :: t.handles⟩
            lat lng fd hlook]
          refine ⟨?_, by trivial, by trivial⟩
          intro hnd
          simp only [List.map_cons]
          exact List.Nodup.cons
            (fun hmem => lookupHandle_none_not_mem t.handles _ h hmem) hnd

/-- Witness for C5 on an empty directory and empty cache at the origin. -/
theorem cache_single_open_witness :
    ((elevation (fun _ => none) ⟨[]⟩ 0 0).tiles.handles.map Prod.fst).Nodup ∧
      (elevation (fun _ => none) (elevation (fun _ => none) ⟨[]⟩ 0 0).tiles 0 0).opened
        = false :=
  ⟨(cache_single_open (fun _ => none) ⟨[]⟩ 0 0).1 (by simp),
    (cache_single_open (fun _ => none) ⟨[]⟩ 0 0).2.1⟩

/-- C8: every call yields exactly one outcome, determined by the first
failing stage with its originating kind — missing file gives the open I/O
error, an illegal handle size gives the format error, and with a legal
size the call reduces to the single two-byte read, which either decodes
one sample or fails as a short read. -/
theorem elevation_single_result :
    ∀ (fs : DirFS) (t : Tiles) (lat lng : ℚ),
      (lookupHandle t.handles (srtm_file_name lat lng) = none →
        fs (srtm_file_name lat lng) = none →
        (elevation fs t lat lng).res = .error .IoNotFound) ∧
      (∀ fd : FileData,
        (lookupHandle t.handles (srtm_file_name lat lng) = some fd ∨
          lookupHandle t.handles (srtm_file_name lat lng) = none ∧
            fs (srtm_file_name lat lng) = some fd) →
        (elevation fs t lat lng).res = readSample lat lng fd) ∧
      (∀ fd : FileData, Resolution.tryFrom fd.size = .error .ResolutionError →
        readSample lat lng fd = .error .ResolutionError) ∧
      (∀ (fd : FileData) (res : Resolution), Resolution.tryFrom fd.size = .ok res →
        readSample lat lng fd =
          readI16At fd
            (((srtm_file_coord lat lng res).1 + (srtm_file_coord lat lng res).2 * res.side)
              % 2 ^ 32 * 2 % 2 ^ 32)) ∧
      (∀ (fd : FileData) (off : Nat),
        readI16At fd off = .ok (decodeI16BE (fd.byte off) (fd.byte (off + 1))) ∨
          readI16At fd off = .error .IoShortRead) := by
  intro fs t lat lng
  refine ⟨?_, ?_, ?_, ?_, ?_⟩
  · intro h h2
    rw [elevation_of_absent fs t lat lng h h2]
  · intro fd hcase
    rcases hcase with h | ⟨h, h2⟩
    · rw [elevation_of_hit fs t lat lng fd h]
    · rw [elevation_of_miss fs t lat lng fd h h2]
  · intro fd h
    exact readSample_of_err lat lng fd _ h
  · intro fd res h
    exact readSample_of_ok lat lng fd res h
  · intro fd off
    unfold readI16At
    split_ifs <;> simp

/-- Witness for C8: the missing-file stage on an empty directory. -/
theorem elevation_single_result_witness :
    (elevation (fun _ => none) ⟨[]⟩ 0 0).res = .error .IoNotFound :=
  (elevation_single_result (fun _ => none) ⟨[]⟩ 0 0).1 rfl rfl

set_option maxRecDepth 2000 in
/-- Shape of the two-digit zero-padded field for values below 100. -/
theorem padDec_two_eq : ∀ n : Nat, n < 100 →
    padDec 2 n = String.mk [Nat.digitChar (n / 10), Nat.digitChar (n % 10)] := by
  decide

set_option maxRecDepth 4000 in
/-- Shape of the three-digit zero-padded field for values below 180. -/
theorem padDec_three_eq : ∀ m : Nat, m < 180 →
    padDec 3 m = String.mk [Nat.digitChar (m / 100), Nat.digitChar (m % 100 / 10),
      Nat.digitChar (m % 10)] := by
  decide

/-- Decimal digit characters are digits. -/
theorem digitChar_isDigit : ∀ k : Nat, k < 10 → (Nat.digitChar k).isDigit = true := by
  decide

/-- The floor of a latitude in `[-89, 89]` has magnitude at most 89. -/
theorem floor_natAbs_le_of_range (v : ℚ) (m : Nat) (h1 : -(m : ℚ) ≤ v) (h2 : v ≤ (m : ℚ)) :
    (⌊v⌋).natAbs ≤ m := by
  have hu : (⌊v⌋ : ℚ) ≤ (m : ℚ) := le_trans (Int.floor_le v) h2
  have hu2 : ⌊v⌋ ≤ (m : ℤ) := by exact_mod_cast hu
  have hl : -(m : ℤ) ≤ ⌊v⌋ := Int.le_floor.mpr (by push_cast; exact h1)
  omega

/-- C6 counterexample: the point (lat, lng) = (-50.9, 1.7) lies inside the
claimed rectangle, the code names its tile "S51E001.hgt" (two-digit field
`|⌊lat⌋| = 51`), but the claim's field value is `⌊|lat|⌋ = 50`, so the
claimed filename differs from the computed one. -/
theorem filename_fields_counterexample :
    srtm_file_name (-50.9 : ℚ) (1.7 : ℚ) = "S51E001.hgt" ∧
    (⌊|(-50.9 : ℚ)|⌋).toNat = 50 ∧
    (⌊|(1.7 : ℚ)|⌋).toNat = 1 ∧
    srtm_file_name (-50.9 : ℚ) (1.7 : ℚ) ≠
      "S" ++ padDec 2 (⌊|(-50.9 : ℚ)|⌋).toNat ++ "E" ++ padDec 3 (⌊|(1.7 : ℚ)|⌋).toNat
        ++ ".hgt" := by
  have hq1 : (-50.9 : ℚ) = mkRat (-509) 10 := by rw [Rat.mkRat_eq_div]; norm_num
  have hq2 : (1.7 : ℚ) = mkRat 17 10 := by rw [Rat.mkRat_eq_div]; norm_num
  rw [hq1, hq2]
  exact ⟨by decide, by decide, by decide, by decide⟩

/-- C6 (amended): for `lat ∈ [-89, 89]` and `lng ∈ [-179, 179]` the
filename matches the fixed-width pattern `[NS]\d\d[EW]\d\d\d.hgt`, and its
magnitude fields are the zero-padded `|⌊lat⌋|` and `|⌊lng⌋|` (not
`⌊|lat|⌋` / `⌊|lng|⌋` as the original claim stated). -/
theorem filename_pattern_fields :
    ∀ lat lng : ℚ, -89 ≤ lat → lat ≤ 89 → -179 ≤ lng → lng ≤ 179 →
      (∃ a c1 c2 d e1 e2 e3 : Char,
        (srtm_file_name lat lng).data = [a, c1, c2, d, e1, e2, e3, '.', 'h', 'g', 't'] ∧
        (a = 'N' ∨ a = 'S') ∧ (d = 'E' ∨ d = 'W') ∧
        c1.isDigit = true ∧ c2.isDigit = true ∧
        e1.isDigit = true ∧ e2.isDigit = true ∧ e3.isDigit = true) ∧
      srtm_file_name lat lng =
        (if 0 ≤ lat then "N" else "S") ++ padDec 2 (⌊lat⌋).natAbs ++
          (if 0 ≤ lng ∧ lng < 180 then "E" else "W") ++ padDec 3 (⌊lng⌋).natAbs ++ ".hgt" := by
  intro lat lng h1 h2 h3 h4
  have hla : (⌊lat⌋).natAbs ≤ 89 := floor_natAbs_le_of_range lat 89 (by push_cast; linarith)
    (by push_cast; linarith)
  have hlb : (⌊lng⌋).natAbs ≤ 179 := floor_natAbs_le_of_range lng 179 (by push_cast; linarith)
    (by push_cast; linarith)
  refine ⟨?_, rfl⟩
  have hpad2 := padDec_two_eq (⌊lat⌋).natAbs (by omega)
  have hpad3 := padDec_three_eq (⌊lng⌋).natAbs (by omega)
  by_cases hN : lat ≥ 0 <;> by_cases hE : lng ≥ 0 ∧ lng < 180
  · have hname : srtm_file_name lat lng =
        "N" ++ padDec 2 (⌊lat⌋).natAbs ++ "E" ++ padDec 3 (⌊lng⌋).natAbs ++ ".hgt" := by
      simp only [srtm_file_name]
      rw [if_pos hN, if_pos hE]
    rw [hname, hpad2, hpad3]
    exact ⟨'N', _, _, 'E', _, _, _, rfl, Or.inl rfl, Or.inl rfl,
      digitChar_isDigit _ (by omega), digitChar_isDigit _ (by omega),
      digitChar_isDigit _ (by omega), digitChar_isDigit _ (by omega),
      digitChar_isDigit _ (by omega)⟩
  · have hname : srtm_file_name lat lng =
        "N" ++ padDec 2 (⌊lat⌋).natAbs ++ "W" ++ padDec 3 (⌊lng⌋).natAbs ++ ".hgt" := by
      simp only [srtm_file_name]
      rw [if_pos hN, if_neg hE]
    rw [hname, hpad2, hpad3]
    exact ⟨'N', _, _, 'W', _, _, _, rfl, Or.inl rfl, Or.inr rfl,
      digitChar_isDigit _ (by omega), digitChar_isDigit _ (by omega),
      digitChar_isDigit _ (by omega), digitChar_isDigit _ (by omega),
      digitChar_isDigit _ (by omega)⟩
  · have hname : srtm_file_name lat lng =
        "S" ++ padDec 2 (⌊lat⌋).natAbs ++ "E" ++ padDec 3 (⌊lng⌋).natAbs ++ ".hgt" := by
      simp only [srtm_file_name]
      rw [if_neg hN, if_pos hE]
    rw [hname, hpad2, hpad3]
    exact ⟨'S', _, _, 'E', _, _, _, rfl, Or.inr rfl, Or.inl rfl,
      digitChar_isDigit _ (by omega), digitChar_isDigit _ (by omega),
      digitChar_isDigit _ (by omega), digitChar_isDigit _ (by omega),
      digitChar_isDigit _ (by omega)⟩
  · have hname : srtm_file_name lat lng =
        "S" ++ padDec 2 (⌊lat⌋).natAbs ++ "W" ++ padDec 3 (⌊lng⌋).natAbs ++ ".hgt" := by
      simp only [srtm_file_name]
      rw [if_neg hN, if_neg hE]
    rw [hname, hpad2, hpad3]
    exact ⟨'S', _, _, 'W', _, _, _, rfl, Or.inr rfl, Or.inr rfl,
      digitChar_isDigit _ (by omega), digitChar_isDigit _ (by omega),
      digitChar_isDigit _ (by omega), digitChar_isDigit _ (by omega),
      digitChar_isDigit _ (by omega)⟩

/-- Witness for the amended C6 at the origin. -/
theorem filename_pattern_fields_witness :
    (∃ a c1 c2 d e1 e2 e3 : Char,
        (srtm_file_name 0 0).data = [a, c1, c2, d, e1, e2, e3, '.', 'h', 'g', 't'] ∧
        (a = 'N' ∨ a = 'S') ∧ (d = 'E' ∨ d = 'W') ∧
        c1.isDigit = true ∧ c2.isDigit = true ∧
        e1.isDigit = true ∧ e2.isDigit = true ∧ e3.isDigit = true) ∧
      srtm_file_name 0 0 =
        (if (0 : ℚ) ≤ 0 then "N" else "S") ++ padDec 2 (⌊(0 : ℚ)⌋).natAbs ++
          (if (0 : ℚ) ≤ 0 ∧ (0 : ℚ) < 180 then "E" else "W") ++ padDec 3 (⌊(0 : ℚ)⌋).natAbs
          ++ ".hgt" :=
  filename_pattern_fields 0 0 (by decide) (by decide) (by decide) (by decide)
